import Mathlib

/-!
Verification of the Zero-G Unstake rescue protocol.

Shallow embedding of the repository's protocol logic:
* `ZeroGToken` (ERC20 `transfer` / `transferFrom`), `StakingVault`
  (`stake`, `unstake`, `canUnstake`, `stakedBalance`) and
  `UnstakeDelegate` (`executeRescue`, `estimateRescue`) from the Solidity
  sources;
* the request validation of the relayer API route (`POST` in
  `frontend/src/app/api/rescue/route.ts`);
* the retry / fallback loop of
  `MevProtectedRelayer.sendProtectedTransaction`
  (`scripts/utils/mevProtection.ts`).

Modelling conventions: addresses are `Nat` (0 is the zero address);
token amounts and timestamps are `Nat` (Solidity 0.8 checked arithmetic
reverts instead of wrapping, and the quantities involved stay far below
2^256 on every path proved here; `balanceAfter - balanceBefore` in
`executeRescue` is genuinely non-negative, so `Nat` subtraction agrees
with the EVM value).  A reverting call is an `Except.error`; the EVM's
transaction atomicity (a revert undoes all state changes) is expressed by
the caller keeping the pre-state whenever a function returns `.error`
(see `applyRescue` and `applyOp`).
-/

namespace ZeroG

/-- A stake position of `StakingVault` (struct `StakeInfo`, lines 296-299). -/
structure StakeInfo where
  amount : Nat
  unlockTime : Nat
deriving DecidableEq, Repr

/-- On-chain state touched by the protocol: the `ZeroGToken` balance and
allowance maps and the vault's `_stakes` map. -/
structure ChainState where
  balanceOf : Nat → Nat
  allowance : Nat → Nat → Nat
  stakes : Nat → StakeInfo

/-- Revert reasons of the three contracts (names as in the source; the
spec's abstract taxonomy maps `NotEligible` to `CannotUnstake`,
`FeeExceedsCeiling` to `FeeTooHigh`, `NothingReleased` to
`InsufficientUnstakedAmount`, `InvalidTarget` to `ZeroAddress`). -/
inductive TxError where
  | ZeroAddress
  | ZeroAmount
  | NoStake
  | StillLocked (unlockTime currentTime : Nat)
  | InsufficientBalance
  | InsufficientAllowance
  | CannotUnstake
  | FeeTooHigh (requested maxAllowed : Nat)
  | InsufficientUnstakedAmount
  | TransferFailed
deriving DecidableEq, Repr

/-- Balance update of `ZeroGToken.transfer` / `transferFrom`
(lines 226-227, 260-261): first `balanceOf[sender] -= amount`, then
`balanceOf[to] += amount`. -/
def transferBal (b : Nat → Nat) (sender toAddr amount : Nat) : Nat → Nat :=
  fun x =>
    if x = toAddr then (if toAddr = sender then b sender - amount else b toAddr) + amount
    else if x = sender then b sender - amount
    else b x

/-- Pointwise stake-map update. -/
def setStake (st : Nat → StakeInfo) (who : Nat) (v : StakeInfo) : Nat → StakeInfo :=
  fun x => if x = who then v else st x

/-- `ZeroGToken.transfer` (lines 222-231), called with `msg.sender = sender`.
Reverts on zero recipient or insufficient balance; returns `true` otherwise
(so the boolean result is omitted: success is `.ok`). -/
def tokenTransfer (sender toAddr amount : Nat) (s : ChainState) : Except TxError ChainState :=
  if toAddr = 0 then .error .ZeroAddress
  else if s.balanceOf sender < amount then .error .InsufficientBalance
  else .ok { s with balanceOf := transferBal s.balanceOf sender toAddr amount }

/-- `ZeroGToken.transferFrom` (lines 254-265), called with
`msg.sender = caller`. -/
def tokenTransferFrom (caller from_ toAddr amount : Nat) (s : ChainState) :
    Except TxError ChainState :=
  if toAddr = 0 then .error .ZeroAddress
  else if s.balanceOf from_ < amount then .error .InsufficientBalance
  else if s.allowance from_ caller < amount then .error .InsufficientAllowance
  else .ok { s with
    balanceOf := transferBal s.balanceOf from_ toAddr amount,
    allowance := fun a b =>
      if a = from_ ∧ b = caller then s.allowance from_ caller - amount
      else s.allowance a b }

/-- `StakingVault.canUnstake` (lines 381-384):
`amount > 0 && block.timestamp >= unlockTime`. -/
def canUnstake (s : ChainState) (user now : Nat) : Bool :=
  decide (0 < (s.stakes user).amount) && decide ((s.stakes user).unlockTime ≤ now)

/-- `StakingVault.stakedBalance` (lines 391-393). -/
def stakedBalance (s : ChainState) (user : Nat) : Nat :=
  (s.stakes user).amount

/-- `StakingVault.stake` (lines 323-335), executed at `block.timestamp = now`
with `msg.sender = msgSender`.  The vault calls
`transferFrom(msg.sender, address(this), amount)` (so the token sees
`msg.sender = vaultAddr`), then adds `amount` and resets
`unlockTime := now + lockDuration`.  The token reverts rather than returning
`false`, so the `TransferFailed` guard of line 328 is unreachable and the
token's own revert propagates. -/
def vaultStake (vaultAddr lockDuration msgSender now amount : Nat) (s : ChainState) :
    Except TxError ChainState :=
  if amount = 0 then .error .ZeroAmount
  else
    match tokenTransferFrom vaultAddr msgSender vaultAddr amount s with
    | .error e => .error e
    | .ok s1 =>
      .ok { s1 with
        stakes := setStake s1.stakes msgSender
          ⟨(s1.stakes msgSender).amount + amount, now + lockDuration⟩ }

/-- `StakingVault.unstake` (lines 342-361), executed at
`block.timestamp = now` with `msg.sender = msgSender`.  Clears the position
before the transfer (CEI pattern), then the vault transfers `amount` of the
staking token to `msgSender`.  Returns the unstaked amount alongside the new
state. -/
def vaultUnstake (vaultAddr msgSender now : Nat) (s : ChainState) :
    Except TxError (ChainState × Nat) :=
  if (s.stakes msgSender).amount = 0 then .error .NoStake
  else if now < (s.stakes msgSender).unlockTime then
    .error (.StillLocked (s.stakes msgSender).unlockTime now)
  else
    match tokenTransfer vaultAddr msgSender (s.stakes msgSender).amount
        { s with stakes := setStake s.stakes msgSender ⟨0, 0⟩ } with
    | .error e => .error e
    | .ok s2 => .ok (s2, (s.stakes msgSender).amount)

/-- `UnstakeDelegate.BPS_DENOMINATOR` (line 35). -/
def BPS_DENOMINATOR : Nat := 10000

/-- `UnstakeDelegate.DEFAULT_RELAYER_FEE_BPS` (line 38). -/
def DEFAULT_RELAYER_FEE_BPS : Nat := 100

/-- The fields of the `RescueExecuted` event (lines 119-126). -/
structure RescueOutcome where
  account : Nat
  vault : Nat
  relayer : Nat
  releasedAmount : Nat
  feeCharged : Nat
  netToAccount : Nat
deriving DecidableEq, Repr

/-- The local `received = balanceAfter - balanceBefore` of `executeRescue`
(lines 86, 92-93): `s` is the state at the snapshot, `s1` the state after
`vault.unstake()`. -/
def receivedAmount (s s1 : ChainState) (eoa : Nat) : Nat :=
  s1.balanceOf eoa - s.balanceOf eoa

/-- The local `relayerFee` of `executeRescue` before clamping (line 98). -/
def rawFee (received : Nat) : Nat :=
  received * DEFAULT_RELAYER_FEE_BPS / BPS_DENOMINATOR

/-- The clamp of lines 106-108: `if (relayerFee > received) relayerFee = received`. -/
def clampFee (received relayerFee : Nat) : Nat :=
  if relayerFee > received then received else relayerFee

/-- The tail of `executeRescue` (lines 110-126): transfer the (clamped) fee
to the relayer when it is positive — the token reverts rather than
returning `false`, so line 113's `TransferFailed` is unreachable and the
token's own revert propagates — then emit the `RescueExecuted` record. -/
def rescueSettle (vault relayer eoa received fee : Nat) (s1 : ChainState) :
    Except TxError (ChainState × RescueOutcome) :=
  if fee > 0 then
    match tokenTransfer eoa relayer fee s1 with
    | .error e => .error e
    | .ok s2 => .ok (s2, ⟨eoa, vault, relayer, received, fee, received - fee⟩)
  else
    .ok (s1, ⟨eoa, vault, relayer, received, fee, received - fee⟩)

/-- `UnstakeDelegate.executeRescue` (lines 60-127), running in the context
of the delegating EOA (`address(this) = eoa`) at `block.timestamp = now`.
Steps, in the source's order: zero-address checks, `canUnstake` gate,
`stakedBalance` gate, balance snapshot, `vault.unstake()` (caller of the
inner token transfer is the vault), received-amount check
(`receivedAmount`), fee computation at `DEFAULT_RELAYER_FEE_BPS`
(`rawFee`), max-fee check, clamp to `received` (`clampFee`), fee transfer
and event (`rescueSettle`). -/
def executeRescue (vault relayer maxFee eoa now : Nat) (s : ChainState) :
    Except TxError (ChainState × RescueOutcome) :=
  if vault = 0 then .error .ZeroAddress
  else if relayer = 0 then .error .ZeroAddress
  else if ¬ canUnstake s eoa now then .error .CannotUnstake
  else if stakedBalance s eoa = 0 then .error .CannotUnstake
  else
    match vaultUnstake vault eoa now s with
    | .error e => .error e
    | .ok (s1, _) =>
      if receivedAmount s s1 eoa = 0 then .error .InsufficientUnstakedAmount
      else if rawFee (receivedAmount s s1 eoa) > maxFee then
        .error (.FeeTooHigh (rawFee (receivedAmount s s1 eoa)) maxFee)
      else
        rescueSettle vault relayer eoa (receivedAmount s s1 eoa)
          (clampFee (receivedAmount s s1 eoa) (rawFee (receivedAmount s s1 eoa))) s1

/-- Transaction-level wrapper: the EVM gives the whole `executeRescue` call
all-or-nothing semantics, so a revert leaves the pre-state untouched and
emits no record. -/
def applyRescue (vault relayer maxFee eoa now : Nat) (s : ChainState) :
    ChainState × Option RescueOutcome :=
  match executeRescue vault relayer maxFee eoa now s with
  | .ok (s', o) => (s', some o)
  | .error _ => (s, none)

/-- Result tuple of `UnstakeDelegate.estimateRescue` (lines 139-157). -/
structure EstimateResult where
  stakedAmount : Nat
  estimatedFee : Nat
  userWouldReceive : Nat
  canRescue : Bool
deriving DecidableEq, Repr

/-- `UnstakeDelegate.estimateRescue` (lines 139-157): a `view` function,
embedded as a pure function of the state.  The fee and net amount default
to 0 and are only assigned when `stakedAmount > 0`. -/
def estimateRescue (user now : Nat) (s : ChainState) : EstimateResult :=
  let stakedAmount := stakedBalance s user
  let canRescue := canUnstake s user now
  if stakedAmount > 0 then
    { stakedAmount := stakedAmount,
      estimatedFee := stakedAmount * DEFAULT_RELAYER_FEE_BPS / BPS_DENOMINATOR,
      userWouldReceive :=
        stakedAmount - stakedAmount * DEFAULT_RELAYER_FEE_BPS / BPS_DENOMINATOR,
      canRescue := canRescue }
  else
    { stakedAmount := stakedAmount, estimatedFee := 0, userWouldReceive := 0,
      canRescue := canRescue }

/-- The Fee Policy (spec §4.1): the fee computation of `executeRescue`
(line 98) followed by its clamp (lines 106-108), with the protocol rate as
an explicit parameter as §4.1/§9 direct; the code fixes
`rateBps = DEFAULT_RELAYER_FEE_BPS = 100`. -/
def computeFee (releasedAmount rateBps : Nat) : Nat :=
  let fee := releasedAmount * rateBps / BPS_DENOMINATOR
  if fee > releasedAmount then releasedAmount else fee

/-- Rejection reasons of the relayer API route
(`frontend/src/app/api/rescue/route.ts`, lines 75-81): the strings
`No stake to rescue` and `Stake is still locked`.  The route has no
fee-related rejection. -/
inductive RouteError where
  | noStakeToRescue
  | stakeStillLocked
deriving DecidableEq, Repr

/-- What the route does with a request after its checks. -/
inductive RouteResult where
  /-- Request rejected with a 400 response before any transaction is sent. -/
  | reject (e : RouteError)
  /-- Request dispatched: `executeRescue(vault, relayer, maxFee)` is
  submitted via `sendTransaction` with the computed `maxFee`. -/
  | dispatch (maxFee : Nat)
deriving DecidableEq, Repr

/-- The request-validation and dispatch logic of `POST` in
`frontend/src/app/api/rescue/route.ts` (lines 65-113): read
`estimateRescue`, reject when `estimate[0] === 0n` or `!estimate[3]`,
otherwise compute `maxFee = estimate[0] * maxFeeBps / 10000n` and submit
the rescue transaction.  (The surrounding key/address plumbing and the
EIP-7702 signing are out of scope; no other check precedes the dispatch.) -/
def routePost (user now maxFeeBps : Nat) (s : ChainState) : RouteResult :=
  let est := estimateRescue user now s
  if est.stakedAmount = 0 then .reject .noStakeToRescue
  else if est.canRescue = false then .reject .stakeStillLocked
  else .dispatch (est.stakedAmount * maxFeeBps / 10000)

/-- A Lock Ledger operation: `StakingVault.stake` or `unstake`, with its
caller and the block timestamp at which it executes. -/
inductive Op where
  | stake (msgSender now amount : Nat)
  | unstake (msgSender now : Nat)
deriving DecidableEq, Repr

/-- Transaction-level application of one vault operation: a revert leaves
the state unchanged. -/
def applyOp (vaultAddr lockDuration : Nat) (s : ChainState) (op : Op) : ChainState :=
  match op with
  | .stake ms now amt =>
    match vaultStake vaultAddr lockDuration ms now amt s with
    | .ok s' => s'
    | .error _ => s
  | .unstake ms now =>
    match vaultUnstake vaultAddr ms now s with
    | .ok (s', _) => s'
    | .error _ => s

/-- Run a sequence of vault operations. -/
def runOps (vaultAddr lockDuration : Nat) (s : ChainState) (ops : List Op) : ChainState :=
  ops.foldl (applyOp vaultAddr lockDuration) s

/-- The spec §3 `StakePosition` invariant: `amount == 0 ⇔ unlockAt == 0`. -/
def StakeInv (s : ChainState) : Prop :=
  ∀ a, (s.stakes a).amount = 0 ↔ (s.stakes a).unlockTime = 0

/-- A stake landing at `now + lockDuration = 0` is the only way a deposit
can leave `unlockTime = 0`; this predicate rules it out for one operation. -/
def OpTimePos (lockDuration : Nat) : Op → Prop
  | .stake _ now _ => 0 < now + lockDuration
  | .unstake _ _ => True

instance (lockDuration : Nat) (op : Op) : Decidable (OpTimePos lockDuration op) := by
  cases op <;> simp only [OpTimePos] <;> infer_instance

section Submission

/-!
`MevProtectedRelayer.sendProtectedTransaction`
(`scripts/utils/mevProtection.ts`, lines 142-191), embedded over an
abstract submission channel: `oracle k` is the outcome of the `k`-th
`client.sendTransaction` call of the whole run (counting across both
channels), `.ok` a transaction hash, `.error` a thrown submission error.
The function loops `attempt = 1 .. maxRetries`; on a failure at
`attempt === maxRetries` with `enabled && fallbackToPublic` it sets
`enabled = false` (switching the RPC endpoint to the public channel) and
calls itself recursively — one fresh loop with a reset attempt counter and
a reset `lastError`.  Because the recursive call runs with
`enabled = false`, its own fallback branch is unreachable, so the recursion
depth is at most one and the recursive call is embedded as the plain loop
`sendPlain`.  The result pairs the outcome (`.error` = the final `throw`,
carrying `lastError` when one was observed) with the total number of
submission attempts made.
-/

variable {E H : Type}

/-- The plain retry loop (no fallback available): `r` attempts remain, `g`
attempts were already made in the whole run, `lastErr` is the last observed
error.  Exhaustion throws `lastError` (`null` when no attempt ran). -/
def sendPlain (oracle : Nat → Except E H) : Nat → Nat → Option E → Except (Option E) H × Nat
  | 0, g, lastErr => (.error lastErr, g)
  | r + 1, g, _lastErr =>
    match oracle g with
    | .ok h => (.ok h, g + 1)
    | .error e => sendPlain oracle r (g + 1) (some e)

/-- The primary-channel loop: like `sendPlain`, but when `willFallback` is
set (i.e. `enabled && fallbackToPublic`) a failure on the final attempt
(`attempt === maxRetries`, i.e. `r = 0` remaining afterwards) switches to
the public channel: a fresh plain loop of `maxRetries` attempts with a
reset `lastError`. -/
def sendGo (oracle : Nat → Except E H) (maxRetries : Nat) (willFallback : Bool) :
    Nat → Nat → Option E → Except (Option E) H × Nat
  | 0, g, lastErr => (.error lastErr, g)
  | r + 1, g, _lastErr =>
    match oracle g with
    | .ok h => (.ok h, g + 1)
    | .error e =>
      if willFallback ∧ r = 0 then sendPlain oracle maxRetries (g + 1) none
      else sendGo oracle maxRetries willFallback r (g + 1) (some e)

/-- `sendProtectedTransaction` with configuration
`{ enabled, maxRetries, fallbackToPublic }`: the fallback branch requires
`this.config.enabled && this.config.fallbackToPublic`. -/
def sendProtectedTransaction (oracle : Nat → Except E H) (maxRetries : Nat)
    (enabled fallbackToPublic : Bool) : Except (Option E) H × Nat :=
  sendGo oracle maxRetries (enabled && fallbackToPublic) maxRetries 0 none

end Submission

/-! ### Concrete states used by the closed theorems and witnesses -/

/-- Account 1 has 1000 units staked with unlock time 10; the vault
(address 2) holds the 1000 staked tokens; the relayer is address 3.
Evaluations below happen at `now = 20`, past the unlock time. -/
def demoState : ChainState :=
  { balanceOf := fun x => if x = 2 then 1000 else 0,
    allowance := fun _ _ => 0,
    stakes := fun x => if x = 1 then ⟨1000, 10⟩ else ⟨0, 0⟩ }

/-- The result of the successful scenario-A rescue
(`executeRescue(vault = 2, relayer = 3, maxFee = 200)` for account 1 at
`now = 20`). -/
def demoRes : Except TxError (ChainState × RescueOutcome) :=
  executeRescue 2 3 200 1 20 demoState

/-- The post-state of the successful scenario-A rescue. -/
def demoOkState : ChainState :=
  match demoRes with
  | .ok (s, _) => s
  | .error _ => demoState

/-- The emitted record of the successful scenario-A rescue. -/
def demoOutcome : RescueOutcome :=
  match demoRes with
  | .ok (_, o) => o
  | .error _ => ⟨0, 0, 0, 0, 0, 0⟩

/-- Account 1 has 50 units staked (below the 100-unit threshold under
which the 1% fee floors to zero) with unlock time 10; the vault holds the
50 tokens. -/
def smallState : ChainState :=
  { balanceOf := fun x => if x = 2 then 50 else 0,
    allowance := fun _ _ => 0,
    stakes := fun x => if x = 1 then ⟨50, 10⟩ else ⟨0, 0⟩ }

/-- An empty Lock Ledger whose token grants account 1 five units, with
allowance 5 for the vault (address 2), as left by `approve`. -/
def cexInit : ChainState :=
  { balanceOf := fun x => if x = 1 then 5 else 0,
    allowance := fun a b => if a = 1 ∧ b = 2 then 5 else 0,
    stakes := fun _ => ⟨0, 0⟩ }

/-! ### Helper lemmas -/

theorem tokenTransfer_ok_stakes {sender toAddr amount : Nat} {s s' : ChainState}
    (h : tokenTransfer sender toAddr amount s = .ok s') : s'.stakes = s.stakes := by
  unfold tokenTransfer at h
  by_cases h0 : toAddr = 0
  · rw [if_pos h0] at h; exact absurd h (by simp)
  rw [if_neg h0] at h
  by_cases h1 : s.balanceOf sender < amount
  · rw [if_pos h1] at h; exact absurd h (by simp)
  rw [if_neg h1] at h
  simp only [Except.ok.injEq] at h
  subst h
  rfl

theorem tokenTransferFrom_ok_stakes {caller from_ toAddr amount : Nat} {s s' : ChainState}
    (h : tokenTransferFrom caller from_ toAddr amount s = .ok s') : s'.stakes = s.stakes := by
  unfold tokenTransferFrom at h
  by_cases h0 : toAddr = 0
  · rw [if_pos h0] at h; exact absurd h (by simp)
  rw [if_neg h0] at h
  by_cases h1 : s.balanceOf from_ < amount
  · rw [if_pos h1] at h; exact absurd h (by simp)
  rw [if_neg h1] at h
  by_cases h2 : s.allowance from_ caller < amount
  · rw [if_pos h2] at h; exact absurd h (by simp)
  rw [if_neg h2] at h
  simp only [Except.ok.injEq] at h
  subst h
  rfl

theorem vaultStake_ok_stakes {v ld ms now amt : Nat} {s s' : ChainState}
    (h : vaultStake v ld ms now amt s = .ok s') :
    amt ≠ 0 ∧
      s'.stakes = setStake s.stakes ms ⟨(s.stakes ms).amount + amt, now + ld⟩ := by
  unfold vaultStake at h
  by_cases h0 : amt = 0
  · rw [if_pos h0] at h; exact absurd h (by simp)
  rw [if_neg h0] at h
  cases heq : tokenTransferFrom v ms v amt s with
  | error e => rw [heq] at h; exact absurd h (by simp)
  | ok s1 =>
    rw [heq] at h
    simp only [Except.ok.injEq] at h
    subst h
    refine ⟨h0, ?_⟩
    have hst := tokenTransferFrom_ok_stakes heq
    simp [hst]

theorem vaultUnstake_ok_stakes {v ms now : Nat} {s s' : ChainState} {amt : Nat}
    (h : vaultUnstake v ms now s = .ok (s', amt)) :
    s'.stakes = setStake s.stakes ms ⟨0, 0⟩ := by
  unfold vaultUnstake at h
  by_cases h0 : (s.stakes ms).amount = 0
  · rw [if_pos h0] at h; exact absurd h (by simp)
  rw [if_neg h0] at h
  by_cases h1 : now < (s.stakes ms).unlockTime
  · rw [if_pos h1] at h; exact absurd h (by simp)
  rw [if_neg h1] at h
  cases heq : tokenTransfer v ms (s.stakes ms).amount
      { s with stakes := setStake s.stakes ms ⟨0, 0⟩ } with
  | error e => rw [heq] at h; exact absurd h (by simp)
  | ok s2 =>
    rw [heq] at h
    simp only [Except.ok.injEq, Prod.mk.injEq] at h
    obtain ⟨h2, _⟩ := h
    subst h2
    exact tokenTransfer_ok_stakes heq

theorem tokenTransfer_ok_of {sender toAddr amount : Nat} {s : ChainState}
    (h0 : toAddr ≠ 0) (h1 : ¬ s.balanceOf sender < amount) :
    tokenTransfer sender toAddr amount s =
      .ok { s with balanceOf := transferBal s.balanceOf sender toAddr amount } := by
  unfold tokenTransfer
  rw [if_neg h0, if_neg h1]

theorem vaultUnstake_ok_of {v ms now : Nat} {s : ChainState}
    (h0 : (s.stakes ms).amount ≠ 0) (h1 : ¬ now < (s.stakes ms).unlockTime)
    (h2 : ms ≠ 0) (h3 : ¬ s.balanceOf v < (s.stakes ms).amount) :
    vaultUnstake v ms now s =
      .ok ({ s with
              balanceOf := transferBal s.balanceOf v ms (s.stakes ms).amount,
              stakes := setStake s.stakes ms ⟨0, 0⟩ }, (s.stakes ms).amount) := by
  unfold vaultUnstake tokenTransfer
  dsimp only
  rw [if_neg h0, if_neg h1, if_neg h2, if_neg h3]

theorem applyOp_preserves_inv {v ld : Nat} {s : ChainState} {op : Op}
    (hInv : StakeInv s) (ht : OpTimePos ld op) : StakeInv (applyOp v ld s op) := by
  cases op with
  | stake ms now amt =>
    simp only [OpTimePos] at ht
    simp only [applyOp]
    cases heq : vaultStake v ld ms now amt s with
    | error e => exact hInv
    | ok s' =>
      obtain ⟨h0, hst⟩ := vaultStake_ok_stakes heq
      intro a
      rw [hst]
      by_cases ha : a = ms
      · simp only [setStake, if_pos ha]
        omega
      · simp only [setStake, if_neg ha]
        exact hInv a
  | unstake ms now =>
    simp only [applyOp]
    cases heq : vaultUnstake v ms now s with
    | error e => exact hInv
    | ok p =>
      obtain ⟨s', amt⟩ := p
      have hst := vaultUnstake_ok_stakes heq
      intro a
      rw [hst]
      by_cases ha : a = ms
      · simp [setStake, ha]
      · simp only [setStake, if_neg ha]
        exact hInv a

theorem rescueSettle_ok_inv {vault relayer eoa received fee : Nat}
    {s1 s' : ChainState} {o : RescueOutcome}
    (h : rescueSettle vault relayer eoa received fee s1 = .ok (s', o)) :
    o = ⟨eoa, vault, relayer, received, fee, received - fee⟩ ∧
      s'.stakes = s1.stakes := by
  unfold rescueSettle at h
  by_cases hf : fee > 0
  · rw [if_pos hf] at h
    cases heq : tokenTransfer eoa relayer fee s1 with
    | error e => rw [heq] at h; exact absurd h (by simp)
    | ok s2 =>
      rw [heq] at h
      simp only [Except.ok.injEq, Prod.mk.injEq] at h
      obtain ⟨h1, h2⟩ := h
      subst h1; subst h2
      exact ⟨rfl, tokenTransfer_ok_stakes heq⟩
  · rw [if_neg hf] at h
    simp only [Except.ok.injEq, Prod.mk.injEq] at h
    obtain ⟨h1, h2⟩ := h
    subst h1; subst h2
    exact ⟨rfl, rfl⟩

theorem executeRescue_ok_inv {vault relayer maxFee eoa now : Nat}
    {s s' : ChainState} {o : RescueOutcome}
    (h : executeRescue vault relayer maxFee eoa now s = .ok (s', o)) :
    vault ≠ 0 ∧ relayer ≠ 0 ∧ s'.stakes eoa = ⟨0, 0⟩ ∧
      o.feeCharged + o.netToAccount = o.releasedAmount ∧ o.feeCharged ≤ maxFee := by
  unfold executeRescue at h
  by_cases hv : vault = 0
  · rw [if_pos hv] at h; exact absurd h (by simp)
  rw [if_neg hv] at h
  by_cases hr : relayer = 0
  · rw [if_pos hr] at h; exact absurd h (by simp)
  rw [if_neg hr] at h
  by_cases hc : ¬ canUnstake s eoa now
  · rw [if_pos hc] at h; exact absurd h (by simp)
  rw [if_neg hc] at h
  by_cases hsb : stakedBalance s eoa = 0
  · rw [if_pos hsb] at h; exact absurd h (by simp)
  rw [if_neg hsb] at h
  cases hu : vaultUnstake vault eoa now s with
  | error e => rw [hu] at h; exact absurd h (by simp)
  | ok p =>
    obtain ⟨s1, amt⟩ := p
    rw [hu] at h
    simp only [] at h
    by_cases h0 : receivedAmount s s1 eoa = 0
    · rw [if_pos h0] at h; exact absurd h (by simp)
    rw [if_neg h0] at h
    by_cases hfee : rawFee (receivedAmount s s1 eoa) > maxFee
    · rw [if_pos hfee] at h; exact absurd h (by simp)
    rw [if_neg hfee] at h
    obtain ⟨ho, hst⟩ := rescueSettle_ok_inv h
    subst ho
    have hstake := vaultUnstake_ok_stakes hu
    have hcl : clampFee (receivedAmount s s1 eoa) (rawFee (receivedAmount s s1 eoa)) ≤
        receivedAmount s s1 eoa := by
      unfold clampFee; split <;> omega
    have hcl2 : clampFee (receivedAmount s s1 eoa) (rawFee (receivedAmount s s1 eoa)) ≤
        rawFee (receivedAmount s s1 eoa) := by
      unfold clampFee; split <;> omega
    refine ⟨hv, hr, ?_, ?_, ?_⟩
    · rw [hst, hstake]; simp [setStake]
    · simp only [RescueOutcome.feeCharged, RescueOutcome.netToAccount,
        RescueOutcome.releasedAmount]
      omega
    · simp only [RescueOutcome.feeCharged]
      omega

/-! ### The claims -/

/-- C4.  The Fee Policy: `computeFee` equals the floor expression clamped
to the released amount, never exceeds the released amount, and is
non-decreasing in the released amount for a fixed rate. -/
theorem computeFee_clamped_monotone :
    ∀ a r : Nat,
      computeFee a r = min (a * r / BPS_DENOMINATOR) a ∧
      computeFee a r ≤ a ∧
      ∀ b : Nat, a ≤ b → computeFee a r ≤ computeFee b r := by
  have hmin : ∀ a r : Nat, computeFee a r = min (a * r / BPS_DENOMINATOR) a := by
    intro a r
    simp only [computeFee]
    split
    · next hgt => exact (min_eq_right (le_of_lt hgt)).symm
    · next hle => exact (min_eq_left (le_of_not_lt hle)).symm
  intro a r
  refine ⟨hmin a r, ?_, ?_⟩
  · rw [hmin]; exact min_le_right _ _
  · intro b hab
    rw [hmin, hmin]
    exact min_le_min (Nat.div_le_div_right (Nat.mul_le_mul_right _ hab)) hab

/-- Witness for C4 at `a = 50, r = 100, b = 1000`. -/
theorem computeFee_clamped_monotone_witness :
    computeFee 50 100 = min (50 * 100 / BPS_DENOMINATOR) 50 ∧
    computeFee 50 100 ≤ 50 ∧ computeFee 50 100 ≤ computeFee 1000 100 :=
  ⟨(computeFee_clamped_monotone 50 100).1, (computeFee_clamped_monotone 50 100).2.1,
    (computeFee_clamped_monotone 50 100).2.2 1000 (by decide)⟩

/-- C6.  `estimateRescue` reports `canRescue = true` exactly when the
account's stake is positive and unlocked, and on a zero stake returns all
zeroes with `canRescue = false`.  The function is a Solidity `view` and is
embedded as a pure function of the state, so it mutates nothing by
construction. -/
theorem estimateRescue_eligibility :
    ∀ (user now : Nat) (s : ChainState),
      ((estimateRescue user now s).canRescue = true ↔
        (0 < (s.stakes user).amount ∧ (s.stakes user).unlockTime ≤ now)) ∧
      ((s.stakes user).amount = 0 →
        estimateRescue user now s = ⟨0, 0, 0, false⟩) := by
  intro user now s
  constructor
  · have h : (estimateRescue user now s).canRescue = canUnstake s user now := by
      simp only [estimateRescue, stakedBalance]
      split <;> rfl
    rw [h]
    simp [canUnstake]
  · intro h0
    have hcu : canUnstake s user now = false := by
      simp [canUnstake, h0]
    simp [estimateRescue, stakedBalance, h0, hcu]

/-- Witness for C6 at account 9 (zero stake in `demoState`). -/
theorem estimateRescue_eligibility_witness :
    (((estimateRescue 9 20 demoState).canRescue = true ↔
      (0 < (demoState.stakes 9).amount ∧ (demoState.stakes 9).unlockTime ≤ 20)) ∧
     ((demoState.stakes 9).amount = 0 →
       estimateRescue 9 20 demoState = ⟨0, 0, 0, false⟩)) :=
  estimateRescue_eligibility 9 20 demoState

/-- C3.  Scenario B: account 1 has 1000 units staked past unlock, the rate
is 100 bps, and the rescue is attempted with fee ceiling `maxFee = 5`.
`executeRescue` reverts with `FeeTooHigh(10, 5)` (the source's name for the
spec's `FeeExceedsCeiling`), and the reverted transaction leaves the whole
state — in particular account 1's fungible balance — exactly as before. -/
theorem scenB_feeTooHigh_rollback :
    executeRescue 2 3 5 1 20 demoState = .error (.FeeTooHigh 10 5) ∧
    (applyRescue 2 3 5 1 20 demoState).1 = demoState ∧
    (applyRescue 2 3 5 1 20 demoState).1.balanceOf 1 = demoState.balanceOf 1 :=
  ⟨rfl, rfl, rfl⟩

/-- C7, counterexample.  Account 1 is fully eligible (1000 units, unlocked)
and the requested ceiling is `maxFeeBps = 50`, giving
`maxFee = 1000 * 50 / 10000 = 5`, strictly below the estimated fee 10 —
yet the route dispatches the transaction instead of rejecting: the code has
no `FeeCeilingTooLow` (or any fee-related) rejection at all. -/
theorem route_low_ceiling_dispatched_cex :
    (estimateRescue 1 20 demoState).estimatedFee = 10 ∧ 5 < 10 ∧
    routePost 1 20 50 demoState = .dispatch 5 := by
  refine ⟨by decide, by decide, by decide⟩

/-- C7, amended.  The route's validator checks only eligibility (nonzero
stake, unlocked); it never compares the fee ceiling with the estimated
fee, so every eligible request is dispatched with
`maxFee = amount * maxFeeBps / 10000` — including requests whose ceiling is
below the estimated fee, which then fail on-chain with `FeeTooHigh`. -/
theorem route_dispatch_ignores_fee_ceiling :
    ∀ (user now maxFeeBps : Nat) (s : ChainState),
      0 < (s.stakes user).amount → canUnstake s user now = true →
      routePost user now maxFeeBps s =
        .dispatch ((s.stakes user).amount * maxFeeBps / 10000) := by
  intro user now bps s h1 h2
  simp [routePost, estimateRescue, stakedBalance, h1, Nat.pos_iff_ne_zero.mp h1, h2]

/-- Witness for C7's amended theorem: the counterexample's inputs. -/
theorem route_dispatch_ignores_fee_ceiling_witness :
    routePost 1 20 50 demoState =
      .dispatch ((demoState.stakes 1).amount * 50 / 10000) :=
  route_dispatch_ignores_fee_ceiling 1 20 50 demoState (by decide) (by decide)

/-- C9, counterexample.  Starting from an empty ledger (which satisfies the
invariant), a single legal `stake(5)` by account 1 at `block.timestamp = 0`
in a vault with `lockDuration = 0` produces the position
`{amount = 5, unlockAt = 0}`: `amount == 0 ⇔ unlockAt == 0` fails, because
`stake` sets `unlockTime = block.timestamp + lockDuration`, which is 0
here. -/
theorem stakeInv_time_zero_cex :
    StakeInv cexInit ∧ ¬ StakeInv (runOps 2 0 cexInit [Op.stake 1 0 5]) := by
  refine ⟨fun a => Iff.rfl, fun h => ?_⟩
  have h5 : ((runOps 2 0 cexInit [Op.stake 1 0 5]).stakes 1).amount = 0 :=
    (h 1).mpr (by decide)
  revert h5
  decide

/-- C9, amended.  For every state reachable from a state satisfying the
invariant (in particular the empty ledger) by stake and unstake operations
in which every stake lands at `block.timestamp + lockDuration > 0` (always
true on a real chain, where `block.timestamp > 0`), every account's
position satisfies `amount == 0 ⇔ unlockAt == 0`. -/
theorem stakePosition_invariant_reachable :
    ∀ (vaultAddr lockDuration : Nat) (ops : List Op) (s0 : ChainState),
      StakeInv s0 → (∀ op ∈ ops, OpTimePos lockDuration op) →
      StakeInv (runOps vaultAddr lockDuration s0 ops) := by
  intro v ld ops
  induction ops with
  | nil => intro s0 h0 _; exact h0
  | cons op rest ih =>
    intro s0 h0 hops
    show StakeInv (runOps v ld (applyOp v ld s0 op) rest)
    exact ih (applyOp v ld s0 op)
      (applyOp_preserves_inv h0 (hops op (by simp)))
      (fun o ho => hops o (by simp [ho]))

/-- Witness for C9's amended theorem: stake then unstake at positive
timestamps. -/
theorem stakePosition_invariant_reachable_witness :
    StakeInv (runOps 2 3 cexInit [Op.stake 1 10 5, Op.unstake 1 20]) :=
  stakePosition_invariant_reachable 2 3 [Op.stake 1 10 5, Op.unstake 1 20] cexInit
    (fun a => Iff.rfl) (by decide)

/-- C1.  Conservation: every successful `executeRescue` emits a
`RescueExecuted` record with `feeCharged + netToAccount = releasedAmount`
and `feeCharged ≤ maxFee` (the supplied fee ceiling). -/
theorem executeRescue_conservation :
    ∀ (vault relayer maxFee eoa now : Nat) (s s' : ChainState) (o : RescueOutcome),
      executeRescue vault relayer maxFee eoa now s = .ok (s', o) →
      o.feeCharged + o.netToAccount = o.releasedAmount ∧ o.feeCharged ≤ maxFee := by
  intro _ _ _ _ _ _ _ _ h
  obtain ⟨_, _, _, hc, hf⟩ := executeRescue_ok_inv h
  exact ⟨hc, hf⟩

/-- Witness for C1: the successful scenario-A rescue
(`releasedAmount = 1000, feeCharged = 10, netToAccount = 990`,
ceiling 200). -/
theorem executeRescue_conservation_witness :
    demoOutcome.feeCharged + demoOutcome.netToAccount = demoOutcome.releasedAmount ∧
      demoOutcome.feeCharged ≤ 200 :=
  executeRescue_conservation 2 3 200 1 20 demoState demoOkState demoOutcome rfl

/-- C2.  Eligibility gating: with valid (nonzero) vault and relayer
targets, `executeRescue` on an account with zero locked balance or a
still-running lock reverts with `CannotUnstake` (the source's name for the
spec's `NotEligible`), and the reverted transaction mutates nothing: the
post-state is exactly the pre-state. -/
theorem executeRescue_ineligible_fails :
    ∀ (vault relayer maxFee eoa now : Nat) (s : ChainState),
      vault ≠ 0 → relayer ≠ 0 →
      ((s.stakes eoa).amount = 0 ∨ now < (s.stakes eoa).unlockTime) →
      executeRescue vault relayer maxFee eoa now s = .error .CannotUnstake ∧
      applyRescue vault relayer maxFee eoa now s = (s, none) := by
  intro vault relayer maxFee eoa now s hv hr helig
  have hcu : canUnstake s eoa now = false := by
    simp only [canUnstake, Bool.and_eq_false_iff, decide_eq_false_iff_not, not_lt, not_le]
    rcases helig with h | h
    · left; omega
    · right; omega
  have he : executeRescue vault relayer maxFee eoa now s = .error .CannotUnstake := by
    unfold executeRescue
    rw [if_neg hv, if_neg hr, if_pos (by simp [hcu])]
  refine ⟨he, ?_⟩
  unfold applyRescue
  rw [he]

/-- Witness for C2: account 7 has no stake in `demoState`. -/
theorem executeRescue_ineligible_fails_witness :
    executeRescue 2 3 200 7 20 demoState = .error .CannotUnstake ∧
      applyRescue 2 3 200 7 20 demoState = (demoState, none) :=
  executeRescue_ineligible_fails 2 3 200 7 20 demoState (by decide) (by decide)
    (Or.inl (by decide))

/-- C5.  No double-release: if `executeRescue` succeeds, the stake position
of the rescued account is cleared to `{0, 0}` (by `unstake`'s CEI-pattern
zeroing), so a second `executeRescue` for the same account — at any later
time and with any ceiling — reverts with `CannotUnstake`: tokens for one
position are never released twice. -/
theorem executeRescue_no_double_release :
    ∀ (vault relayer maxFee maxFee2 eoa now now2 : Nat) (s s' : ChainState)
      (o : RescueOutcome),
      executeRescue vault relayer maxFee eoa now s = .ok (s', o) →
      executeRescue vault relayer maxFee2 eoa now2 s' = .error .CannotUnstake := by
  intro vault relayer maxFee maxFee2 eoa now now2 s s' o h
  obtain ⟨hv, hr, hstake, _, _⟩ := executeRescue_ok_inv h
  have hcu : canUnstake s' eoa now2 = false := by
    simp [canUnstake, hstake]
  unfold executeRescue
  rw [if_neg hv, if_neg hr, if_pos (by simp [hcu])]

/-- Witness for C5: re-running the rescue on the post-state of the
successful scenario-A rescue. -/
theorem executeRescue_no_double_release_witness :
    executeRescue 2 3 0 1 99 demoOkState = .error .CannotUnstake :=
  executeRescue_no_double_release 2 3 200 0 1 20 99 demoState demoOkState demoOutcome rfl

/-- C10.  Dust-sized rescue: on an eligible account whose stake is positive
but below 100 base units (so `rawFee = floor(received * 100 / 10000) = 0`),
`executeRescue` succeeds for every `maxFee` (the `relayerFee > maxFee`
check cannot fire on 0), performs no token transfer to the relayer at all
(the `relayerFee > 0` guard skips it, so every address other than the
vault and the account keeps its exact balance), and emits
`feeCharged = 0` and `netToAccount = releasedAmount`. -/
theorem executeRescue_zero_fee_small_stake :
    ∀ (vault relayer maxFee eoa now : Nat) (s : ChainState),
      vault ≠ 0 → relayer ≠ 0 → eoa ≠ 0 → eoa ≠ vault →
      canUnstake s eoa now = true →
      (s.stakes eoa).amount < 100 →
      (s.stakes eoa).amount ≤ s.balanceOf vault →
      ∃ s' o,
        executeRescue vault relayer maxFee eoa now s = .ok (s', o) ∧
        o.feeCharged = 0 ∧ o.netToAccount = o.releasedAmount ∧
        o.releasedAmount = (s.stakes eoa).amount ∧
        (∀ x, x ≠ vault → x ≠ eoa → s'.balanceOf x = s.balanceOf x) := by
  intro vault relayer maxFee eoa now s hv hr he0 hev helig hsmall hbal
  have hA : 0 < (s.stakes eoa).amount ∧ (s.stakes eoa).unlockTime ≤ now := by
    simpa [canUnstake] using helig
  have hu : vaultUnstake vault eoa now s =
      .ok ({ s with
              balanceOf := transferBal s.balanceOf vault eoa (s.stakes eoa).amount,
              stakes := setStake s.stakes eoa ⟨0, 0⟩ }, (s.stakes eoa).amount) :=
    vaultUnstake_ok_of (by omega) (by omega) he0 (by omega)
  have hrecv : receivedAmount s
      { s with
          balanceOf := transferBal s.balanceOf vault eoa (s.stakes eoa).amount,
          stakes := setStake s.stakes eoa ⟨0, 0⟩ } eoa = (s.stakes eoa).amount := by
    simp only [receivedAmount, transferBal]
    simp only [if_true, eq_self_iff_true, if_neg hev]
    omega
  have hraw : rawFee (s.stakes eoa).amount = 0 := by
    unfold rawFee DEFAULT_RELAYER_FEE_BPS BPS_DENOMINATOR
    exact Nat.div_eq_of_lt (by omega)
  have hclamp : clampFee (s.stakes eoa).amount 0 = 0 := by
    unfold clampFee
    rw [if_neg (by omega)]
  have hstep : executeRescue vault relayer maxFee eoa now s =
      rescueSettle vault relayer eoa (s.stakes eoa).amount 0
        { s with
            balanceOf := transferBal s.balanceOf vault eoa (s.stakes eoa).amount,
            stakes := setStake s.stakes eoa ⟨0, 0⟩ } := by
    unfold executeRescue
    rw [if_neg hv, if_neg hr, if_neg (not_not_intro helig),
      if_neg (show ¬ stakedBalance s eoa = 0 by simp only [stakedBalance]; omega), hu]
    simp only []
    rw [hrecv, hraw, if_neg (by omega), if_neg (by omega), hclamp]
  have hsettle : rescueSettle vault relayer eoa (s.stakes eoa).amount 0
      { s with
          balanceOf := transferBal s.balanceOf vault eoa (s.stakes eoa).amount,
          stakes := setStake s.stakes eoa ⟨0, 0⟩ } =
      .ok ({ s with
              balanceOf := transferBal s.balanceOf vault eoa (s.stakes eoa).amount,
              stakes := setStake s.stakes eoa ⟨0, 0⟩ },
        ⟨eoa, vault, relayer, (s.stakes eoa).amount, 0,
          (s.stakes eoa).amount - 0⟩) := by
    unfold rescueSettle
    rw [if_neg (by omega)]
  refine ⟨_, _, hstep.trans hsettle, rfl, by simp, rfl, ?_⟩
  intro x hxv hxe
  show transferBal s.balanceOf vault eoa (s.stakes eoa).amount x = s.balanceOf x
  unfold transferBal
  rw [if_neg hxe, if_neg hxv]

/-- Witness for C10: account 1 with a 50-unit stake, rescued with
`maxFee = 0`; the relayer (address 3) keeps its balance. -/
theorem executeRescue_zero_fee_small_stake_witness :
    ∃ s' o,
      executeRescue 2 3 0 1 20 smallState = .ok (s', o) ∧
      o.feeCharged = 0 ∧ o.netToAccount = o.releasedAmount ∧
      o.releasedAmount = (smallState.stakes 1).amount ∧
      (∀ x, x ≠ 2 → x ≠ 1 → s'.balanceOf x = smallState.balanceOf x) :=
  executeRescue_zero_fee_small_stake 2 3 0 1 20 smallState (by decide) (by decide)
    (by decide) (by decide) (by decide) (by decide) (by decide)

/-! ### C8: retry / fallback bounds for the submission loop -/

section SubmissionProofs

variable {E H : Type} (oracle : Nat → Except E H)

theorem sendPlain_count :
    ∀ (r g : Nat) (le : Option E), (sendPlain oracle r g le).2 ≤ g + r := by
  intro r
  induction r with
  | zero => intro g le; simp [sendPlain]
  | succ n ih =>
    intro g le
    cases h : oracle g with
    | ok v => simp [sendPlain, h]
    | error e =>
      simp only [sendPlain, h]
      exact le_trans (ih (g + 1) (some e)) (by omega)

theorem sendPlain_step_error (r g : Nat) (le : Option E) (e : E)
    (h : oracle g = .error e) :
    sendPlain oracle (r + 1) g le = sendPlain oracle r (g + 1) (some e) := by
  simp [sendPlain, h]

theorem sendGo_step_error (m : Nat) (wf : Bool) (r g : Nat) (le : Option E) (e : E)
    (h : oracle g = .error e) :
    sendGo oracle m wf (r + 1) g le =
      (if wf ∧ r = 0 then sendPlain oracle m (g + 1) none
       else sendGo oracle m wf r (g + 1) (some e)) := by
  simp [sendGo, h]

theorem sendPlain_allfail (errF : Nat → E) :
    ∀ (j g : Nat) (le : Option E),
      (∀ k, g ≤ k → k < g + (j + 1) → oracle k = .error (errF k)) →
      sendPlain oracle (j + 1) g le = (.error (some (errF (g + j))), g + (j + 1)) := by
  intro j
  induction j with
  | zero =>
    intro g le hf
    have h0 : oracle g = .error (errF g) := hf g le_rfl (by omega)
    simp [sendPlain, h0]
  | succ m ih =>
    intro g le hf
    have h0 : oracle g = .error (errF g) := hf g le_rfl (by omega)
    rw [sendPlain_step_error oracle (m + 1) g le (errF g) h0]
    have hrec := ih (g + 1) (some (errF g)) (fun k hk1 hk2 => hf k (by omega) (by omega))
    rw [hrec]
    rw [show g + 1 + m = g + (m + 1) from by omega,
      show g + 1 + (m + 1) = g + (m + 1 + 1) from by omega]

theorem sendGo_count (m : Nat) (wf : Bool) :
    ∀ (r g : Nat) (le : Option E), (sendGo oracle m wf r g le).2 ≤ g + r + m := by
  intro r
  induction r with
  | zero => intro g le; simp only [sendGo]; omega
  | succ n ih =>
    intro g le
    cases h : oracle g with
    | ok v => simp only [sendGo, h]; omega
    | error e =>
      simp only [sendGo, h]
      split
      · exact le_trans (sendPlain_count oracle m (g + 1) none) (by omega)
      · exact le_trans (ih (g + 1) (some e)) (by omega)

theorem sendGo_allfail (m : Nat) (errF : Nat → E) :
    ∀ (j g : Nat) (le : Option E),
      (∀ k, g ≤ k → k < g + (j + 1) → oracle k = .error (errF k)) →
      sendGo oracle m true (j + 1) g le = sendPlain oracle m (g + (j + 1)) none := by
  intro j
  induction j with
  | zero =>
    intro g le hf
    have h0 : oracle g = .error (errF g) := hf g le_rfl (by omega)
    simp [sendGo, h0]
  | succ m' ih =>
    intro g le hf
    have h0 : oracle g = .error (errF g) := hf g le_rfl (by omega)
    rw [sendGo_step_error oracle m true (m' + 1) g le (errF g) h0]
    rw [if_neg (by simp)]
    have hrec := ih (g + 1) (some (errF g)) (fun k hk1 hk2 => hf k (by omega) (by omega))
    rw [hrec, show g + 1 + (m' + 1) = g + (m' + 1 + 1) from by omega]

end SubmissionProofs

/-- C8.  Retry and fallback of `sendProtectedTransaction` with
`enabled = true` and `fallbackToPublic = true`: (a) for every oracle of
channel outcomes and any configuration flags, the total number of
submission attempts is at most `2 * maxRetries` (at most `maxRetries` on
the primary channel, then — after the one switch to the public channel,
which resets the attempt counter — at most `maxRetries` more); (b) when
every attempt fails, the run terminates with the error thrown being the
last observed one (that of attempt number `2 * maxRetries`), after exactly
`2 * maxRetries` attempts. -/
theorem mev_retry_fallback_bound {E H : Type} :
    ∀ (maxRetries : Nat), 0 < maxRetries →
      ∀ (oracle : Nat → Except E H) (errF : Nat → E),
        (∀ k, k < 2 * maxRetries → oracle k = .error (errF k)) →
        (∀ (orc : Nat → Except E H) (enabled fallbackToPublic : Bool),
          (sendProtectedTransaction orc maxRetries enabled fallbackToPublic).2 ≤
            2 * maxRetries) ∧
        sendProtectedTransaction oracle maxRetries true true =
          (.error (some (errF (2 * maxRetries - 1))), 2 * maxRetries) := by
  intro m hm oracle errF hfail
  constructor
  · intro orc en fb
    unfold sendProtectedTransaction
    have := sendGo_count orc m (en && fb) m 0 none
    omega
  · obtain ⟨m', rfl⟩ : ∃ m', m = m' + 1 := ⟨m - 1, by omega⟩
    unfold sendProtectedTransaction
    have h1 := sendGo_allfail oracle (m' + 1) errF m' 0 none
      (fun k hk1 hk2 => hfail k (by omega))
    have h2 := sendPlain_allfail oracle errF m' (0 + (m' + 1)) none
      (fun k hk1 hk2 => hfail k (by omega))
    calc sendGo oracle (m' + 1) (true && true) (m' + 1) 0 none
        = sendGo oracle (m' + 1) true (m' + 1) 0 none := by rw [Bool.and_self]
      _ = sendPlain oracle (m' + 1) (0 + (m' + 1)) none := h1
      _ = (.error (some (errF (0 + (m' + 1) + m'))), 0 + (m' + 1) + (m' + 1)) := h2
      _ = (.error (some (errF (2 * (m' + 1) - 1))), 2 * (m' + 1)) := by
            rw [show 0 + (m' + 1) + m' = 2 * (m' + 1) - 1 from by omega,
              show 0 + (m' + 1) + (m' + 1) = 2 * (m' + 1) from by omega]

/-- Witness for C8: `maxRetries = 2` with an oracle failing every attempt
with error `k` at attempt index `k`: 4 attempts in total, final error 3. -/
theorem mev_retry_fallback_bound_witness :
    ((sendProtectedTransaction (fun k => (Except.error k : Except Nat Nat)) 2
        true true).2 ≤ 4) ∧
    sendProtectedTransaction (fun k => (Except.error k : Except Nat Nat)) 2 true true =
      (.error (some 3), 4) := by
  have h := mev_retry_fallback_bound 2 (by decide)
    (fun k => (Except.error k : Except Nat Nat)) (fun k => k) (fun k _ => rfl)
  exact ⟨h.1 _ true true, by rw [h.2]⟩

end ZeroG
